import Mathlib

/-!
Verification of the ServiceBusPubSub multiplexing engine
(package graphql-azure-servicebus-subscriptions, file ServiceBusPubSub.ts).

The development shallowly embeds the engine: JavaScript runtime values are
the inductive JsVal, messages are JsVal objects with a body field and an
optional applicationProperties field, and the class methods publish,
subscribe, unsubscribe and the receive loop of the method that creates the
receiver become pure Lean functions and a small step relation on an
explicit engine state.
-/

namespace SBPS

/-- A JavaScript runtime value as the engine manipulates it: string, number,
boolean scalars and plain objects (field lists with unique keys). The null
and undefined values are modelled by Option at use sites. -/
inductive JsVal where
  | str (s : String)
  | num (n : Int)
  | boolean (b : Bool)
  | obj (fields : List (String × JsVal))

/-- Strict equality of a runtime value against a string literal, the
JavaScript comparison v === eventName with eventName a string: true exactly
for the equal string, false for every other value (undefined included at
the Option layer). -/
def strictEqStr : JsVal → String → Bool
  | .str s, t => s = t
  | _, _ => false

/-- Strict equality against a string lifted over undefined. -/
def optEqStr : Option JsVal → String → Bool
  | some v, t => strictEqStr v t
  | none, _ => false

/-- Field lookup on an association list, first occurrence wins, as in a
JavaScript object (whose keys are unique anyway). -/
def lookupF : List (String × JsVal) → String → Option JsVal
  | [], _ => none
  | (k, v) :: rest, q => if k = q then some v else lookupF rest q

/-- Property read p[k]: objects look the key up, reading a property of a
scalar yields undefined (none). -/
def getF : JsVal → String → Option JsVal
  | .obj fs, k => lookupF fs k
  | _, _ => none

/-- Property write on a field list: replace the value at the first
occurrence of the key, or append the key when absent (JavaScript object
assignment semantics). -/
def setFields : List (String × JsVal) → String → JsVal → List (String × JsVal)
  | [], k, v => [(k, v)]
  | (k1, v1) :: rest, k, v =>
      if k1 = k then (k1, v) :: rest else (k1, v1) :: setFields rest k v

/-- Errors a publish call can end in. The constructor typeError is the
strict mode JavaScript TypeError raised when the source assigns a property
on a primitive (lines message.body[key] = eventName and
payload[key] = eventName of ServiceBusPubSub.ts applied to a scalar).
Modelled from the spec: the constructor unsupportedBodyShape is the
dedicated error the specification names for a body that is not field
addressable; no code in the repository constructs or raises such an error,
the constructor exists only so the corresponding claim can be stated. -/
inductive PublishError where
  | typeError
  | unsupportedBodyShape
deriving DecidableEq

/-- Property write p[k] = v as an expression: on an object it returns the
updated object, on a scalar it raises TypeError (strict mode). -/
def setF : JsVal → String → JsVal → Except PublishError JsVal
  | .obj fs, k, v => .ok (.obj (setFields fs k v))
  | _, _, _ => .error .typeError

/-- Options of a ServiceBus topic subscription to be created, passed
through verbatim to the admin client. -/
structure SubOpts where
  autoDeleteOnIdle : String
  maxDeliveryCount : Int
  defaultMessageTimeToLive : String
deriving DecidableEq

/-- The IServiceBusOptions configuration record of ServiceBusPubSub.ts. -/
structure SBOptions where
  topicName : String
  subscriptionName : String
  eventNameKey : Option String
  useCustomPropertyForEventName : Bool
  createSubscription : Bool
  createSubscriptionOptions : Option SubOpts
deriving DecidableEq

/-- The event identity key the instance uses: the constructor keeps the
field default "eventName" unless options.eventNameKey is truthy (a present,
non empty string). -/
def resolvedKey (o : SBOptions) : String :=
  match o.eventNameKey with
  | some k => if k = "" then "eventName" else k
  | none => "eventName"

/-- The isServiceBusMessage type guard: a payload counts as a prebuilt
message exactly when its body property is defined. -/
def isServiceBusMessage (p : JsVal) : Bool :=
  (getF p "body").isSome

/-- The enrichMessage method restricted to the one attribute map the source
ever passes, [(key, eventName)]: sets the key on the properties value only
when reading it yields undefined. When the properties value is a scalar the
read yields undefined and the write raises TypeError. -/
def enrichProps (key eventName : String) (props : JsVal) :
    Except PublishError JsVal :=
  match getF props key with
  | some _ => .ok props
  | none => setF props key (.str eventName)

/-- The publish method of ServiceBusPubSub.ts: classifies the payload with
isServiceBusMessage, tags it under the configured strategy and returns the
message handed to sender.sendMessages (an object with a body field and
possibly an applicationProperties field). -/
def publish (o : SBOptions) (eventName : String) (payload : JsVal) :
    Except PublishError JsVal :=
  let key := resolvedKey o
  if isServiceBusMessage payload then
    if o.useCustomPropertyForEventName then
      match getF payload "applicationProperties" with
      | none => setF payload "applicationProperties" (.obj [(key, .str eventName)])
      | some props =>
          match enrichProps key eventName props with
          | .error e => .error e
          | .ok props2 => setF payload "applicationProperties" props2
    else
      match getF payload "body" with
      | some b =>
          match setF b key (.str eventName) with
          | .error e => .error e
          | .ok b2 => setF payload "body" b2
      | none => .error .typeError
  else
    if o.useCustomPropertyForEventName then
      .ok (.obj [("body", payload),
                 ("applicationProperties", .obj [(key, .str eventName)])])
    else
      match setF payload key (.str eventName) with
      | .error e => .error e
      | .ok p2 => .ok (.obj [("body", p2)])

/-- Event identity extraction, as the subscribe filter reads it back: the
key under applicationProperties when the custom property strategy is
active, the key inside body otherwise; none models undefined. -/
def eventExtract (o : SBOptions) (ev : JsVal) : Option JsVal :=
  let key := resolvedKey o
  if o.useCustomPropertyForEventName then
    (getF ev "applicationProperties").bind (fun p => getF p key)
  else
    (getF ev "body").bind (fun b => getF b key)

/-- The rxjs filter predicate installed by subscribe, with JavaScript
truthiness made explicit: a non empty eventName whose tag under the active
strategy strictly equals the subscribed name, or the wildcard name. -/
def filterMatch (o : SBOptions) (eventName : String) (ev : JsVal) : Bool :=
  let key := resolvedKey o
  (!(decide (eventName = "")) && o.useCustomPropertyForEventName &&
    optEqStr ((getF ev "applicationProperties").bind (fun p => getF p key))
      eventName)
  || (!(decide (eventName = "")) && !o.useCustomPropertyForEventName &&
    optEqStr ((getF ev "body").bind (fun b => getF b key)) eventName)
  || decide (eventName = "*")

/-- A registry entry: the opaque id handed back by subscribe together with
the event name whose filter it carries. -/
structure SubEntry where
  id : Nat
  eventName : String
deriving DecidableEq

/-- Fan out of one inbound envelope over the live registry: every entry
whose filter matches is invoked with the unwrapped body (the map step of
the rxjs pipe). The result lists the invoked ids with their argument. -/
def dispatch (o : SBOptions) (subs : List SubEntry) (ev : JsVal) :
    List (Nat × Option JsVal) :=
  subs.filterMap (fun s =>
    if filterMatch o s.eventName ev then some (s.id, getF ev "body") else none)

/-- The error object the admin client throws, with the fields the source
inspects. -/
structure RestError where
  name : String
  statusCode : Nat
  code : String
deriving DecidableEq

/-- The already exists test of the catch block: name RestError, HTTP status
409 and the MessageEntityAlreadyExistsError code. -/
def isAlreadyExists (e : RestError) : Bool :=
  decide (e.name = "RestError") && decide (e.statusCode = 409) &&
    decide (e.code = "MessageEntityAlreadyExistsError")

/-- Provisioning is attempted only when both the createSubscription flag is
set and the createSubscriptionOptions record is supplied, the conjunction
the source guards on. -/
def provisioningEnabled (o : SBOptions) : Bool :=
  o.createSubscription && o.createSubscriptionOptions.isSome

/-- The provisioning part of the startup method: given the outcome the
broker admin client would report, returns the outcome the engine observes
together with the number of createSubscription admin calls made. A
distinguishable already exists error is swallowed as success; every other
error is rethrown; when provisioning is not enabled no call is made. -/
def provisionStep (o : SBOptions) (broker : Except RestError Unit) :
    (Except RestError Unit) × Nat :=
  if provisioningEnabled o then
    match broker with
    | .ok _ => (.ok (), 1)
    | .error e => if isAlreadyExists e then (.ok (), 1) else (.error e, 1)
  else (.ok (), 0)

/-- Observable engine state: the live registry, how many broker receivers
were ever created, how many admin create calls were made, whether the
receiver subscription is open, and whether the asynchronous startup kicked
off by the constructor has completed. -/
structure EngineState where
  subs : List SubEntry
  receiversCreated : Nat
  adminCalls : Nat
  receiverOpen : Bool
  ready : Bool
deriving DecidableEq

/-- State right after the constructor returns: the startup method was fired
without being awaited, so the instance is not ready, yet it already accepts
calls. -/
def initialState : EngineState :=
  { subs := [], receiversCreated := 0, adminCalls := 0,
    receiverOpen := false, ready := false }

/-- The startup method of the engine (named initialize in the source): runs
the provisioning step and, when it does not throw, creates the single
receiver and attaches the message and error handlers. A provisioning error
aborts startup before any receiver is created. -/
def engineInit (o : SBOptions) (broker : Except RestError Unit)
    (st : EngineState) : Except RestError EngineState :=
  match provisionStep o broker with
  | (.error e, _) => .error e
  | (.ok _, n) =>
      .ok { st with adminCalls := st.adminCalls + n,
                    receiversCreated := st.receiversCreated + 1,
                    receiverOpen := true, ready := true }

/-- Errors the specification names for engine calls. Modelled from the
spec: engineStopped is the EngineStopped failure the specification assigns
to calls after a fatal broker error, and notReady the rejection it mandates
for calls arriving before provisioning completed; the source defines and
raises neither, the constructors exist only so the corresponding claims can
be stated. -/
inductive EngineError where
  | engineStopped
  | notReady
deriving DecidableEq

/-- The subscribe method: generates an id, installs the filtered rxjs
subscription in the registry and resolves with the id. It does not create a
receiver, does not consult readiness and cannot fail. -/
def subscribeStep (st : EngineState) (id : Nat) (eventName : String) :
    EngineState × Except EngineError Nat :=
  ({ st with subs := st.subs ++ [{ id := id, eventName := eventName }] },
   .ok id)

/-- The unsubscribe method: an unknown id returns at once; a known id has
its rxjs subscription unsubscribed and its registry entry deleted. The
receiver is never touched. -/
def unsubscribeStep (st : EngineState) (id : Nat) : EngineState :=
  if st.subs.any (fun s => s.id = id) then
    { st with subs := st.subs.filter (fun s => !(decide (s.id = id))) }
  else st

/-- An error the broker hands to the processError handler: whether
isServiceBusError accepts it, and its code. -/
structure BrokerError where
  isSB : Bool
  code : String
deriving DecidableEq

/-- The codes the error handler treats as unrecoverable. -/
def isFatalCode (c : String) : Bool :=
  decide (c = "MessagingEntityDisabled") ||
    decide (c = "MessagingEntityNotFound") ||
    decide (c = "UnauthorizedAccess")

/-- One event arriving on the receiver: a delivered message or an error. -/
inductive BrokerEvent where
  | message (m : JsVal)
  | failure (e : BrokerError)

/-- One turn of the receive loop. A closed receiver delivers nothing. A
message is pushed on the subject and fanned out over the registry. A
ServiceBus error with an unrecoverable code closes the receiver
subscription; lock lost and busy errors are logged or waited out and the
loop continues; everything else is only logged. -/
def receiveStep (o : SBOptions) (st : EngineState) (e : BrokerEvent) :
    EngineState × List (Nat × Option JsVal) :=
  if !st.receiverOpen then (st, [])
  else
    match e with
    | .message m => (st, dispatch o st.subs m)
    | .failure err =>
        if err.isSB && isFatalCode err.code then
          ({ st with receiverOpen := false }, [])
        else (st, [])

/-- Run of the receive loop over a list of broker events, collecting every
callback invocation in order. -/
def runReceive (o : SBOptions) (st : EngineState) :
    List BrokerEvent → EngineState × List (Nat × Option JsVal)
  | [] => (st, [])
  | e :: rest =>
      let (st2, out) := receiveStep o st e
      let (st3, outs) := runReceive o st2 rest
      (st3, out ++ outs)

/-- Run of a list of subscribe calls (id, eventName), quantifying over any
mix of event ids. -/
def runSubscribes (st : EngineState) : List (Nat × String) → EngineState
  | [] => st
  | (id, en) :: rest => runSubscribes (subscribeStep st id en).1 rest

/-- Whether a runtime value is a plain object, hence field addressable. -/
def isObj : JsVal → Bool
  | .obj _ => true
  | _ => false

/-- How many times a key occurs in a field list. -/
def keyCount : List (String × JsVal) → String → Nat
  | [], _ => 0
  | (k1, _) :: rest, k => (if k1 = k then 1 else 0) + keyCount rest k

/-- Sufficient condition under which tagging a payload round trips: under
the property strategy a prebuilt envelope must not already carry a value at
the identity key and its properties, when present, must be an object; under
the body field strategy the tagged body must be an object. -/
def TagSafe (o : SBOptions) (p : JsVal) : Bool :=
  let key := resolvedKey o
  if o.useCustomPropertyForEventName then
    if isServiceBusMessage p then
      match getF p "applicationProperties" with
      | none => true
      | some props => isObj props && (getF props key).isNone
    else true
  else
    if isServiceBusMessage p then
      match getF p "body" with
      | some b => isObj b
      | none => false
    else isObj p

/-- Whether the value that the body field strategy would tag is a
structured, field addressable value. -/
def bodyAddressable (p : JsVal) : Bool :=
  if isServiceBusMessage p then
    match getF p "body" with
    | some b => isObj b
    | none => false
  else isObj p

/-- The publish method reads only the configured sender and the options; it
consults no engine flag, so its outcome is independent of the engine
state. -/
def publishStep (o : SBOptions) (_st : EngineState) (en : String)
    (p : JsVal) : Except PublishError JsVal :=
  publish o en p

/-- Round trip of the tagger: publish the payload, then extract the event
identity from the message that went to the sender. -/
def tagExtract (o : SBOptions) (en : String) (p : JsVal) :
    Except PublishError (Option JsVal) :=
  (publish o en p).map (eventExtract o)

/-- Configuration with the custom property strategy, default identity key,
provisioning off. -/
def oProp : SBOptions where
  topicName := "t"
  subscriptionName := "s"
  eventNameKey := none
  useCustomPropertyForEventName := true
  createSubscription := false
  createSubscriptionOptions := none

/-- Configuration with the body field strategy. -/
def oBody : SBOptions :=
  { oProp with useCustomPropertyForEventName := false }

/-- Configuration with provisioning enabled. -/
def oProv : SBOptions :=
  { oProp with
      createSubscription := true
      createSubscriptionOptions := some
        { autoDeleteOnIdle := "PT5M", maxDeliveryCount := 10,
          defaultMessageTimeToLive := "P14D" } }

/-- The error the broker reports when the subscription already exists. -/
def eExists : RestError where
  name := "RestError"
  statusCode := 409
  code := "MessageEntityAlreadyExistsError"

/-- Some other broker error during provisioning. -/
def eOther : RestError where
  name := "RestError"
  statusCode := 500
  code := "InternalError"

/-- A caller supplied envelope already tagged with event name A. -/
def pconf : JsVal :=
  .obj [("body", .str "b"),
        ("applicationProperties", .obj [("eventName", .str "A")])]

/-- The field list of pconf. -/
def fs0 : List (String × JsVal) :=
  [("body", .str "b"),
   ("applicationProperties", .obj [("eventName", .str "A")])]

/-- An envelope whose body already carries the identity field with value
A. -/
def pbody : JsVal := .obj [("body", .obj [("eventName", .str "A")])]

/-- An inbound envelope tagged with the empty string under the custom
property strategy. -/
def evEmpty : JsVal :=
  .obj [("body", .str "x"),
        ("applicationProperties", .obj [("eventName", .str "")])]

/-- A prebuilt message without properties. -/
def pMsg : JsVal := .obj [("body", .str "x")]

/-- What publishing pMsg under oProp and event E sends. -/
def msgSent : JsVal :=
  .obj [("body", .str "x"),
        ("applicationProperties", .obj [("eventName", .str "E")])]

/-- Engine state after a successful startup, before any subscribe. -/
def stOpen : EngineState where
  subs := []
  receiversCreated := 1
  adminCalls := 0
  receiverOpen := true
  ready := true

/-- Engine state after startup with two live subscriptions. -/
def stTwo : EngineState where
  subs := [{ id := 1, eventName := "A" }, { id := 2, eventName := "B" }]
  receiversCreated := 1
  adminCalls := 0
  receiverOpen := true
  ready := true

/-- A fatal ServiceBus error as classified by the processError handler. -/
def errFatal : BrokerError where
  isSB := true
  code := "MessagingEntityNotFound"

end SBPS

namespace SBPS

theorem lookupF_setFields_self (fs : List (String × JsVal)) (k : String)
    (v : JsVal) : lookupF (setFields fs k v) k = some v := by
  induction fs with
  | nil => simp [setFields, lookupF]
  | cons kv rest ih =>
      obtain ⟨k1, v1⟩ := kv
      by_cases h : k1 = k
      · simp [setFields, h, lookupF]
      · simp [setFields, h, lookupF, ih]

theorem lookupF_setFields_ne (fs : List (String × JsVal)) (k q : String)
    (v : JsVal) (h : q ≠ k) :
    lookupF (setFields fs k v) q = lookupF fs q := by
  induction fs with
  | nil => simp [setFields, lookupF, Ne.symm h]
  | cons kv rest ih =>
      obtain ⟨k1, v1⟩ := kv
      by_cases h1 : k1 = k
      · subst h1
        simp [setFields, lookupF, Ne.symm h]
      · simp [setFields, h1, lookupF, ih]

theorem setFields_self_of_lookup (fs : List (String × JsVal)) (k : String)
    (v : JsVal) (h : lookupF fs k = some v) : setFields fs k v = fs := by
  induction fs with
  | nil => simp [lookupF] at h
  | cons kv rest ih =>
      obtain ⟨k1, v1⟩ := kv
      by_cases h1 : k1 = k
      · simp [lookupF, h1] at h
        simp [setFields, h1, h]
      · simp [lookupF, h1] at h
        simp [setFields, h1, ih h]

theorem lookupF_none_of_not_mem (fs : List (String × JsVal)) (k : String)
    (h : k ∉ fs.map Prod.fst) : lookupF fs k = none := by
  induction fs with
  | nil => simp [lookupF]
  | cons kv rest ih =>
      obtain ⟨k1, v1⟩ := kv
      simp only [List.map_cons, List.mem_cons, not_or] at h
      have h1 : ¬ k1 = k := fun he => h.1 he.symm
      simp [lookupF, h1, ih h.2]

theorem keyCount_eq_zero (fs : List (String × JsVal)) (k : String)
    (h : lookupF fs k = none) : keyCount fs k = 0 := by
  induction fs with
  | nil => simp [keyCount]
  | cons kv rest ih =>
      obtain ⟨k1, v1⟩ := kv
      by_cases h1 : k1 = k
      · simp [lookupF, h1] at h
      · simp [lookupF, h1] at h
        simp [keyCount, h1, ih h]

theorem keyCount_setFields_absent (fs : List (String × JsVal)) (k : String)
    (v : JsVal) (h : lookupF fs k = none) :
    keyCount (setFields fs k v) k = 1 := by
  induction fs with
  | nil => simp [setFields, keyCount]
  | cons kv rest ih =>
      obtain ⟨k1, v1⟩ := kv
      by_cases h1 : k1 = k
      · simp [lookupF, h1] at h
      · simp [lookupF, h1] at h
        simp [setFields, h1, keyCount, ih h]

theorem keyCount_setFields_present (fs : List (String × JsVal))
    (k : String) (v w : JsVal) (h : lookupF fs k = some w) :
    keyCount (setFields fs k v) k = keyCount fs k := by
  induction fs with
  | nil => simp [lookupF] at h
  | cons kv rest ih =>
      obtain ⟨k1, v1⟩ := kv
      by_cases h1 : k1 = k
      · simp [setFields, h1, keyCount]
      · simp [lookupF, h1] at h
        simp [setFields, h1, keyCount, ih h]

theorem keyCount_eq_one_of_nodup (fs : List (String × JsVal)) (k : String)
    (w : JsVal) (hnd : (fs.map Prod.fst).Nodup) (h : lookupF fs k = some w) :
    keyCount fs k = 1 := by
  induction fs with
  | nil => simp [lookupF] at h
  | cons kv rest ih =>
      obtain ⟨k1, v1⟩ := kv
      simp only [List.map_cons, List.nodup_cons] at hnd
      by_cases h1 : k1 = k
      · subst h1
        have : lookupF rest k1 = none := lookupF_none_of_not_mem rest k1 hnd.1
        simp [keyCount, keyCount_eq_zero rest k1 this]
      · simp [lookupF, h1] at h
        simp [keyCount, h1, ih hnd.2 h]

theorem keyCount_setFields_nodup (fs : List (String × JsVal)) (k : String)
    (v : JsVal) (hnd : (fs.map Prod.fst).Nodup) :
    keyCount (setFields fs k v) k = 1 := by
  cases h : lookupF fs k with
  | none => exact keyCount_setFields_absent fs k v h
  | some w =>
      rw [keyCount_setFields_present fs k v w h]
      exact keyCount_eq_one_of_nodup fs k w hnd h

theorem setF_scalar (p : JsVal) (k : String) (v : JsVal)
    (h : isObj p = false) : setF p k v = .error .typeError := by
  cases p with
  | obj fs => simp [isObj] at h
  | str s => rfl
  | num n => rfl
  | boolean b => rfl

theorem getF_scalar (p : JsVal) (k : String) (h : isObj p = false) :
    getF p k = none := by
  cases p with
  | obj fs => simp [isObj] at h
  | str s => rfl
  | num n => rfl
  | boolean b => rfl

theorem publish_raw_custom (o : SBOptions) (en : String) (p : JsVal)
    (hc : o.useCustomPropertyForEventName = true) (hb : getF p "body" = none) :
    publish o en p = .ok (.obj [("body", p),
      ("applicationProperties", .obj [(resolvedKey o, .str en)])]) := by
  simp [publish, isServiceBusMessage, hb, hc]

theorem publish_raw_body_obj (o : SBOptions) (en : String)
    (fs : List (String × JsVal)) (hc : o.useCustomPropertyForEventName = false)
    (hb : lookupF fs "body" = none) :
    publish o en (.obj fs)
      = .ok (.obj [("body", .obj (setFields fs (resolvedKey o) (.str en)))]) := by
  simp [publish, isServiceBusMessage, getF, hb, hc, setF]

theorem publish_raw_body_scalar (o : SBOptions) (en : String) (p : JsVal)
    (hc : o.useCustomPropertyForEventName = false) (hobj : isObj p = false) :
    publish o en p = .error .typeError := by
  have hb : getF p "body" = none := getF_scalar p "body" hobj
  simp [publish, isServiceBusMessage, hb, hc, setF_scalar p (resolvedKey o) (.str en) hobj]

theorem publish_env_custom_noprops (o : SBOptions) (en : String)
    (fs : List (String × JsVal)) (b : JsVal)
    (hc : o.useCustomPropertyForEventName = true)
    (hb : lookupF fs "body" = some b)
    (hp : lookupF fs "applicationProperties" = none) :
    publish o en (.obj fs)
      = .ok (.obj (setFields fs "applicationProperties"
          (.obj [(resolvedKey o, .str en)]))) := by
  simp [publish, isServiceBusMessage, getF, hb, hp, hc, setF]

theorem publish_env_custom_tagged (o : SBOptions) (en : String)
    (fs : List (String × JsVal)) (b props w : JsVal)
    (hc : o.useCustomPropertyForEventName = true)
    (hb : lookupF fs "body" = some b)
    (hp : lookupF fs "applicationProperties" = some props)
    (hw : getF props (resolvedKey o) = some w) :
    publish o en (.obj fs) = .ok (.obj fs) := by
  have hb2 : getF (JsVal.obj fs) "body" = some b := hb
  have hp2 : getF (JsVal.obj fs) "applicationProperties" = some props := hp
  simp [publish, isServiceBusMessage, hb2, hp2, hc, enrichProps, hw, setF,
    setFields_self_of_lookup fs "applicationProperties" props hp]

theorem publish_env_custom_untagged (o : SBOptions) (en : String)
    (fs : List (String × JsVal)) (b : JsVal) (pfs : List (String × JsVal))
    (hc : o.useCustomPropertyForEventName = true)
    (hb : lookupF fs "body" = some b)
    (hp : lookupF fs "applicationProperties" = some (.obj pfs))
    (hw : lookupF pfs (resolvedKey o) = none) :
    publish o en (.obj fs)
      = .ok (.obj (setFields fs "applicationProperties"
          (.obj (setFields pfs (resolvedKey o) (.str en))))) := by
  simp [publish, isServiceBusMessage, getF, hb, hp, hc, enrichProps, hw, setF]

theorem publish_env_custom_props_scalar (o : SBOptions) (en : String)
    (fs : List (String × JsVal)) (b props : JsVal)
    (hc : o.useCustomPropertyForEventName = true)
    (hb : lookupF fs "body" = some b)
    (hp : lookupF fs "applicationProperties" = some props)
    (hobj : isObj props = false) :
    publish o en (.obj fs) = .error .typeError := by
  have hw : getF props (resolvedKey o) = none := getF_scalar props _ hobj
  have hb2 : getF (JsVal.obj fs) "body" = some b := hb
  have hp2 : getF (JsVal.obj fs) "applicationProperties" = some props := hp
  simp [publish, isServiceBusMessage, hb2, hp2, hc, enrichProps, hw,
    setF_scalar props (resolvedKey o) (.str en) hobj]

theorem publish_env_body_obj (o : SBOptions) (en : String)
    (fs bfs : List (String × JsVal))
    (hc : o.useCustomPropertyForEventName = false)
    (hb : lookupF fs "body" = some (.obj bfs)) :
    publish o en (.obj fs)
      = .ok (.obj (setFields fs "body"
          (.obj (setFields bfs (resolvedKey o) (.str en))))) := by
  simp [publish, isServiceBusMessage, getF, hb, hc, setF]

theorem publish_env_body_scalar (o : SBOptions) (en : String)
    (fs : List (String × JsVal)) (b : JsVal)
    (hc : o.useCustomPropertyForEventName = false)
    (hb : lookupF fs "body" = some b) (hobj : isObj b = false) :
    publish o en (.obj fs) = .error .typeError := by
  simp [publish, isServiceBusMessage, getF, hb, hc,
    setF_scalar b (resolvedKey o) (.str en) hobj]

theorem filterMatch_eq_spec (o : SBOptions) (en : String) (ev : JsVal) :
    filterMatch o en ev
      = (decide (en = "*")
          || (!(decide (en = "")) && optEqStr (eventExtract o ev) en)) := by
  cases hc : o.useCustomPropertyForEventName
  · simp [filterMatch, eventExtract, hc, Bool.or_comm]
  · simp [filterMatch, eventExtract, hc, Bool.or_comm]

theorem receiveStep_closed (o : SBOptions) (st : EngineState)
    (e : BrokerEvent) (h : st.receiverOpen = false) :
    receiveStep o st e = (st, []) := by
  simp [receiveStep, h]

theorem runReceive_closed (o : SBOptions) (st : EngineState)
    (evs : List BrokerEvent) (h : st.receiverOpen = false) :
    runReceive o st evs = (st, []) := by
  induction evs with
  | nil => rfl
  | cons e rest ih => simp [runReceive, receiveStep_closed o st e h, ih]

theorem runSubscribes_receivers (calls : List (Nat × String))
    (st : EngineState) :
    (runSubscribes st calls).receiversCreated = st.receiversCreated := by
  induction calls generalizing st with
  | nil => rfl
  | cons c rest ih =>
      obtain ⟨id, en⟩ := c
      rw [runSubscribes, ih]
      rfl

theorem dispatch_filter (o : SBOptions) (ev : JsVal) (id : Nat)
    (subs : List SubEntry) :
    dispatch o (subs.filter (fun s => !(decide (s.id = id)))) ev
      = (dispatch o subs ev).filter (fun r => !(decide (r.1 = id))) := by
  induction subs with
  | nil => rfl
  | cons s rest ih =>
      simp only [dispatch] at ih ⊢
      by_cases hid : s.id = id
      · cases hm : filterMatch o s.eventName ev <;>
          simp [List.filter_cons, List.filterMap_cons, hid, hm, ih]
      · cases hm : filterMatch o s.eventName ev <;>
          simp [List.filter_cons, List.filterMap_cons, hid, hm, ih]

/-- C1 (amended): per inbound envelope, a registered callback is invoked,
with the unwrapped body as argument, exactly when its event id is the
wildcard, or its event id is non empty and the event identity extracted
from the envelope under the active tagging strategy strictly equals it; an
entry matching neither incurs no invocation. The amendment adds the non
empty requirement: the source tests the event id for JavaScript truthiness,
so the empty string id never matches an extracted tag. -/
theorem claim1_dispatch_matches_spec (o : SBOptions) (subs : List SubEntry)
    (ev : JsVal) :
    dispatch o subs ev
      = subs.filterMap (fun s =>
          if decide (s.eventName = "*")
              || (!(decide (s.eventName = ""))
                  && optEqStr (eventExtract o ev) s.eventName)
          then some (s.id, getF ev "body") else none) := by
  simp only [dispatch]
  congr 1
  funext s
  rw [filterMatch_eq_spec]

/-- C1 counterexample: a subscription on the empty string id receives
nothing from an envelope whose extracted identity is the empty string, even
though the claim as stated (invoke if and only if wildcard or extracted
identity equals the id) requires an invocation. -/
theorem claim1_counterexample :
    dispatch oProp [{ id := 1, eventName := "" }] evEmpty = []
    ∧ eventExtract oProp evEmpty = some (.str "")
    ∧ ("" : String) ≠ "*" :=
  ⟨rfl, rfl, by decide⟩

/-- C2: once startup has completed, the receiver count is one and any
number of subscribe calls on any mix of event ids never creates another
receiver. -/
theorem claim2_single_receiver (o : SBOptions)
    (broker : Except RestError Unit) (st2 : EngineState)
    (calls : List (Nat × String))
    (h : engineInit o broker initialState = .ok st2) :
    (runSubscribes st2 calls).receiversCreated = 1 := by
  rw [runSubscribes_receivers]
  unfold engineInit at h
  cases hp : provisionStep o broker with
  | mk r n =>
      rw [hp] at h
      cases r with
      | error e => simp at h
      | ok u =>
          simp only [Except.ok.injEq] at h
          rw [← h]
          rfl

/-- C2 witness: startup with provisioning disabled followed by three
subscribe calls on two event names leaves exactly one receiver created. -/
theorem claim2_witness :
    (runSubscribes stOpen [(1, "A"), (2, "B"), (3, "A")]).receiversCreated
      = 1 :=
  claim2_single_receiver oProp (.ok ()) stOpen [(1, "A"), (2, "B"), (3, "A")]
    rfl

/-- C9: the constructor fires the startup method without awaiting it and
neither subscribe nor publish consults readiness, so in the not ready state
right after construction a subscribe call is accepted, resolving with its
id rather than a not ready rejection, and a publish call goes straight to
the sender. -/
theorem claim9_accepts_before_ready :
    initialState.ready = false
    ∧ (subscribeStep initialState 5 "A").2 = .ok 5
    ∧ (subscribeStep initialState 5 "A").2 ≠ .error EngineError.notReady
    ∧ publishStep oProp initialState "E" (.str "x")
        = .ok (.obj [("body", .str "x"),
            ("applicationProperties", .obj [("eventName", .str "E")])]) :=
  ⟨rfl, rfl, fun h => Except.noConfusion h, rfl⟩

/-- C3: with provisioning disabled (flag off or options absent) the
provisioning step makes no admin call and startup proceeds; with it enabled
the admin create operation is invoked exactly once, an already exists
error, recognised by its specific code, counts as success, a successful
create counts as success, and any other error is propagated unchanged,
aborting startup with no retry. -/
theorem claim3_provisioning (o : SBOptions) (broker : Except RestError Unit) :
    (provisioningEnabled o = false →
      provisionStep o broker = (.ok (), 0)
      ∧ engineInit o broker initialState
          = .ok { subs := [], receiversCreated := 1, adminCalls := 0,
                  receiverOpen := true, ready := true })
    ∧ (provisioningEnabled o = true →
        (provisionStep o broker).2 = 1
        ∧ (broker = .ok () → (provisionStep o broker).1 = .ok ())
        ∧ (∀ e, broker = .error e → isAlreadyExists e = true →
            (provisionStep o broker).1 = .ok ())
        ∧ (∀ e, broker = .error e → isAlreadyExists e = false →
            (provisionStep o broker).1 = .error e
            ∧ engineInit o broker initialState = .error e)) := by
  constructor
  · intro hdis
    constructor
    · simp [provisionStep, hdis]
    · simp [engineInit, provisionStep, hdis, initialState]
  · intro hen
    refine ⟨?_, fun hok => ?_, fun e he hae => ?_, fun e he hnae => ?_⟩
    · cases broker with
      | ok u => simp [provisionStep, hen]
      | error e =>
          by_cases hae : isAlreadyExists e <;> simp [provisionStep, hen, hae]
    · subst hok
      simp [provisionStep, hen]
    · subst he
      simp [provisionStep, hen, hae]
    · subst he
      constructor
      · simp [provisionStep, hen, hnae]
      · simp [engineInit, provisionStep, hen, hnae]

/-- C3 witness: an enabled configuration hitting the already exists error
continues as success after exactly one admin call, and hitting any other
error propagates it. -/
theorem claim3_witness :
    provisioningEnabled oProv = true
    ∧ (provisionStep oProv (.error eExists)).1 = .ok ()
    ∧ (provisionStep oProv (.error eExists)).2 = 1
    ∧ (provisionStep oProv (.error eOther)).1 = .error eOther :=
  ⟨by decide,
   ((claim3_provisioning oProv (.error eExists)).2 (by decide)).2.2.1 eExists
     rfl (by decide),
   ((claim3_provisioning oProv (.error eExists)).2 (by decide)).1,
   (((claim3_provisioning oProv (.error eOther)).2 (by decide)).2.2.2 eOther
     rfl (by decide)).1⟩

/-- C4 (amended): after the broker reports a fatal entity error the
receiver subscription is closed and no later broker event produces any
callback invocation; however, contrary to the claim as stated, subsequent
subscribe calls still resolve with a fresh id and publish still sends, the
source defining no EngineStopped failure. -/
theorem claim4_fatal_stops_dispatch_only (o : SBOptions) (st : EngineState)
    (err : BrokerError) (h1 : err.isSB = true)
    (h2 : isFatalCode err.code = true) :
    ((receiveStep o st (.failure err)).1).receiverOpen = false
    ∧ (∀ evs, (runReceive o (receiveStep o st (.failure err)).1 evs).2 = [])
    ∧ (∀ id en,
        (subscribeStep (receiveStep o st (.failure err)).1 id en).2 = .ok id)
    ∧ (∀ en p, publishStep o (receiveStep o st (.failure err)).1 en p
        = publish o en p) := by
  have hclosed : ((receiveStep o st (.failure err)).1).receiverOpen = false := by
    cases hro : st.receiverOpen <;> simp [receiveStep, hro, h1, h2]
  refine ⟨hclosed, fun evs => ?_, fun id en => rfl, fun en p => rfl⟩
  rw [runReceive_closed o _ evs hclosed]

/-- C4 witness: a concrete fatal entity error closes the receiver, a later
message event dispatches nothing, and a later subscribe still resolves. -/
theorem claim4_witness :
    ((receiveStep oProp stOpen (.failure errFatal)).1).receiverOpen = false
    ∧ (runReceive oProp (receiveStep oProp stOpen (.failure errFatal)).1
        [.message evEmpty]).2 = []
    ∧ (subscribeStep (receiveStep oProp stOpen (.failure errFatal)).1 7
        "A").2 = .ok 7 :=
  ⟨(claim4_fatal_stops_dispatch_only oProp stOpen errFatal rfl (by decide)).1,
   (claim4_fatal_stops_dispatch_only oProp stOpen errFatal rfl
     (by decide)).2.1 [.message evEmpty],
   (claim4_fatal_stops_dispatch_only oProp stOpen errFatal rfl
     (by decide)).2.2.1 7 "A"⟩

/-- C4 counterexample: after a fatal entity error a subscribe call does not
fail with EngineStopped as the claim states, it resolves with the fresh
id. -/
theorem claim4_counterexample :
    (subscribeStep (receiveStep oProp stOpen (.failure errFatal)).1 7
      "A").2 = .ok 7
    ∧ (subscribeStep (receiveStep oProp stOpen (.failure errFatal)).1 7
      "A").2 ≠ .error EngineError.engineStopped :=
  ⟨rfl, fun h => Except.noConfusion h⟩

theorem bool_eq_false_of_not_true (b : Bool) (h : ¬ b = true) : b = false := by
  cases b
  · rfl
  · exact absurd rfl h

theorem tagExtract_ok_of_tagSafe (o : SBOptions) (en : String) (p : JsVal)
    (h : TagSafe o p = true) :
    tagExtract o en p = .ok (some (.str en)) := by
  by_cases hc : o.useCustomPropertyForEventName = true
  · cases hsb : isServiceBusMessage p
    · have hb : getF p "body" = none := by
        unfold isServiceBusMessage at hsb
        cases hg : getF p "body" with
        | none => rfl
        | some v => rw [hg] at hsb; simp at hsb
      rw [tagExtract, publish_raw_custom o en p hc hb]
      simp [Except.map, eventExtract, hc, getF, lookupF]
    · obtain ⟨fs, rfl⟩ : ∃ fs, p = .obj fs := by
        cases p with
        | obj fs => exact ⟨fs, rfl⟩
        | str s => simp [isServiceBusMessage, getF] at hsb
        | num n => simp [isServiceBusMessage, getF] at hsb
        | boolean b => simp [isServiceBusMessage, getF] at hsb
      have hbe : ∃ b, lookupF fs "body" = some b := by
        have hsb3 : (lookupF fs "body").isSome = true := hsb
        cases hg : lookupF fs "body" with
        | some b => exact ⟨b, rfl⟩
        | none => rw [hg] at hsb3; simp at hsb3
      obtain ⟨b, hb⟩ := hbe
      cases hp : lookupF fs "applicationProperties" with
      | none =>
          rw [tagExtract, publish_env_custom_noprops o en fs b hc hb hp]
          simp [Except.map, eventExtract, hc, getF, lookupF_setFields_self,
            lookupF]
      | some props =>
          have hsb2 : isServiceBusMessage (JsVal.obj fs) = true := hsb
          have hp2 : getF (JsVal.obj fs) "applicationProperties"
              = some props := hp
          simp only [TagSafe, hc, if_true, hsb2, hp2] at h
          rw [Bool.and_eq_true] at h
          obtain ⟨hobj, hnone⟩ := h
          obtain ⟨pfs, rfl⟩ : ∃ pfs, props = .obj pfs := by
            cases props with
            | obj pfs => exact ⟨pfs, rfl⟩
            | str s => simp [isObj] at hobj
            | num n => simp [isObj] at hobj
            | boolean b2 => simp [isObj] at hobj
          have hw : lookupF pfs (resolvedKey o) = none := by
            simpa [getF, Option.isNone_iff_eq_none] using hnone
          rw [tagExtract, publish_env_custom_untagged o en fs b pfs hc hb hp hw]
          simp [Except.map, eventExtract, hc, getF, lookupF_setFields_self]
  · have hc2 : o.useCustomPropertyForEventName = false :=
      bool_eq_false_of_not_true _ hc
    cases p with
    | str s => simp [TagSafe, hc2, isServiceBusMessage, getF, isObj] at h
    | num n => simp [TagSafe, hc2, isServiceBusMessage, getF, isObj] at h
    | boolean bb => simp [TagSafe, hc2, isServiceBusMessage, getF, isObj] at h
    | obj fs =>
        cases hb : lookupF fs "body" with
        | none =>
            rw [tagExtract, publish_raw_body_obj o en fs hc2 hb]
            simp [Except.map, eventExtract, hc2, getF, lookupF,
              lookupF_setFields_self]
        | some b =>
            have hobj : isObj b = true := by
              simp [TagSafe, hc2, isServiceBusMessage, getF, hb] at h
              exact h
            obtain ⟨bfs, rfl⟩ : ∃ bfs, b = .obj bfs := by
              cases b with
              | obj bfs => exact ⟨bfs, rfl⟩
              | str s => simp [isObj] at hobj
              | num n => simp [isObj] at hobj
              | boolean b2 => simp [isObj] at hobj
            rw [tagExtract, publish_env_body_obj o en fs bfs hc2 hb]
            simp [Except.map, eventExtract, hc2, getF, lookupF_setFields_self]

theorem tagSafe_eq_bodyAddressable (o : SBOptions) (p : JsVal)
    (hc : o.useCustomPropertyForEventName = false) :
    TagSafe o p = bodyAddressable p := by
  simp [TagSafe, bodyAddressable, hc]

/-- C5 (amended): publishing a payload with event id en and extracting the
identity from the sent message yields en under both strategies, provided
the payload is tag safe: under the property strategy a prebuilt envelope
must not already carry a value at the identity key (and its properties,
when present, must be an object), and under the body field strategy the
tagged body must be an object. The amendment adds the proviso: the property
strategy never overwrites, so a conflicting pre existing tag survives and
breaks the round trip, as the counterexample shows. -/
theorem claim5_tag_round_trip (o : SBOptions) (en : String) (p : JsVal)
    (h : TagSafe o p = true) :
    tagExtract o en p = .ok (some (.str en)) :=
  tagExtract_ok_of_tagSafe o en p h

/-- C5 witness: a raw string payload round trips under the property
strategy. -/
theorem claim5_witness :
    TagSafe oProp (.str "hi") = true
    ∧ tagExtract oProp "E" (.str "hi") = .ok (some (.str "E")) :=
  ⟨by decide, claim5_tag_round_trip oProp "E" (.str "hi") (by decide)⟩

/-- C5 counterexample: an envelope already tagged A, published with event
id B under the property strategy, keeps the old tag, so extraction yields
A, not B as the claim as stated requires. -/
theorem claim5_counterexample :
    tagExtract oProp "B" pconf = .ok (some (.str "A"))
    ∧ ("A" : String) ≠ "B" :=
  ⟨rfl, by decide⟩

/-- C7 (amended): under the body field strategy, publishing a payload whose
tagged body is not field addressable fails, but with the generic runtime
TypeError of a strict mode property assignment on a primitive, not with a
dedicated UnsupportedBodyShape error, which the source never defines; for a
field addressable body the identity field is set, the call succeeds and the
identity round trips. -/
theorem claim7_body_shape (o : SBOptions) (en : String) (p : JsVal)
    (hc : o.useCustomPropertyForEventName = false) :
    (bodyAddressable p = false → publish o en p = .error .typeError)
    ∧ (bodyAddressable p = true → tagExtract o en p = .ok (some (.str en))) := by
  constructor
  · intro hba
    cases p with
    | obj fs =>
        cases hb : lookupF fs "body" with
        | none =>
            exfalso
            simp [bodyAddressable, isServiceBusMessage, getF, hb, isObj] at hba
        | some b =>
            have hobj : isObj b = false := by
              have hsb : isServiceBusMessage (JsVal.obj fs) = true := by
                simp [isServiceBusMessage, getF, hb]
              simp only [bodyAddressable, hsb, if_true] at hba
              have hb2 : getF (JsVal.obj fs) "body" = some b := hb
              rw [hb2] at hba
              exact hba
            exact publish_env_body_scalar o en fs b hc hb hobj
    | str s => exact publish_raw_body_scalar o en _ hc rfl
    | num n => exact publish_raw_body_scalar o en _ hc rfl
    | boolean b => exact publish_raw_body_scalar o en _ hc rfl
  · intro hba
    exact tagExtract_ok_of_tagSafe o en p
      ((tagSafe_eq_bodyAddressable o p hc).trans hba)

/-- C7 witness: a raw string payload under the body field strategy fails
with the runtime TypeError, and an object payload succeeds with the
identity field set. -/
theorem claim7_witness :
    bodyAddressable (.str "Hello") = false
    ∧ publish oBody "E" (.str "Hello") = .error .typeError
    ∧ bodyAddressable (.obj [("x", .num 1)]) = true
    ∧ tagExtract oBody "E" (.obj [("x", .num 1)]) = .ok (some (.str "E")) :=
  ⟨by decide,
   (claim7_body_shape oBody "E" (.str "Hello") rfl).1 (by decide),
   by decide,
   (claim7_body_shape oBody "E" (.obj [("x", .num 1)]) rfl).2 (by decide)⟩

/-- C7 counterexample: the failure on a raw scalar body is the runtime
TypeError, not the UnsupportedBodyShape error the claim names, since no
code in the repository raises such an error. -/
theorem claim7_counterexample :
    publish oBody "E" (.str "Hello") = .error .typeError
    ∧ PublishError.typeError ≠ PublishError.unsupportedBodyShape :=
  ⟨rfl, by decide⟩

theorem unsubscribeStep_subs (st : EngineState) (id : Nat) :
    (unsubscribeStep st id).subs
      = st.subs.filter (fun s => !(decide (s.id = id))) := by
  unfold unsubscribeStep
  split
  · rfl
  · next hany =>
      have : st.subs.filter (fun s => !(decide (s.id = id))) = st.subs := by
        apply List.filter_eq_self.mpr
        intro a ha
        simp only [Bool.not_eq_true', decide_eq_false_iff_not]
        intro hEq
        exact hany (List.any_eq_true.mpr ⟨a, ha, by simp [hEq]⟩)
      rw [this]

theorem unsubscribeStep_of_any_false (st : EngineState) (id : Nat)
    (h : st.subs.any (fun s => s.id = id) = false) :
    unsubscribeStep st id = st := by
  simp [unsubscribeStep, h]

/-- C8: unsubscribing an id removes exactly that registry entry, leaves the
receiver handle and the receiver count untouched, stops only dispatch to
that id while every other entry keeps receiving exactly as before, is a
silent no op on an unknown id, and a second unsubscribe of the same id
changes nothing; the operation is total and never raises. -/
theorem claim8_unsubscribe (st : EngineState) (id : Nat) :
    (unsubscribeStep st id).receiverOpen = st.receiverOpen
    ∧ (unsubscribeStep st id).receiversCreated = st.receiversCreated
    ∧ (unsubscribeStep st id).subs
        = st.subs.filter (fun s => !(decide (s.id = id)))
    ∧ (st.subs.any (fun s => s.id = id) = false → unsubscribeStep st id = st)
    ∧ unsubscribeStep (unsubscribeStep st id) id = unsubscribeStep st id
    ∧ (∀ o ev, dispatch o (unsubscribeStep st id).subs ev
        = (dispatch o st.subs ev).filter (fun r => !(decide (r.1 = id)))) := by
  refine ⟨?_, ?_, unsubscribeStep_subs st id, unsubscribeStep_of_any_false st id, ?_, ?_⟩
  · unfold unsubscribeStep
    split <;> rfl
  · unfold unsubscribeStep
    split <;> rfl
  · apply unsubscribeStep_of_any_false
    rw [unsubscribeStep_subs]
    rw [List.any_eq_false]
    intro x hx
    have hmem := List.mem_filter.mp hx
    simpa using hmem.2
  · intro o ev
    rw [unsubscribeStep_subs]
    exact dispatch_filter o ev id st.subs

/-- C8 witness: on a registry with ids 1 and 2, unsubscribing 1 keeps the
receiver open, removes only entry 1, dispatch of a wildcard envelope still
reaches 2, a repeat unsubscribe of 1 changes nothing, and unsubscribing the
unknown id 3 is a no op. -/
theorem claim8_witness :
    (unsubscribeStep stTwo 1).receiverOpen = stTwo.receiverOpen
    ∧ (unsubscribeStep stTwo 1).subs
        = stTwo.subs.filter (fun s => !(decide (s.id = 1)))
    ∧ unsubscribeStep (unsubscribeStep stTwo 1) 1 = unsubscribeStep stTwo 1
    ∧ unsubscribeStep stTwo 3 = stTwo
    ∧ dispatch oProp (unsubscribeStep stTwo 1).subs evEmpty
        = (dispatch oProp stTwo.subs evEmpty).filter
            (fun r => !(decide (r.1 = 1))) :=
  ⟨(claim8_unsubscribe stTwo 1).1,
   (claim8_unsubscribe stTwo 1).2.2.1,
   (claim8_unsubscribe stTwo 1).2.2.2.2.1,
   (claim8_unsubscribe stTwo 3).2.2.2.1 rfl,
   (claim8_unsubscribe stTwo 1).2.2.2.2.2 oProp evEmpty⟩

/-- C6 (amended): tagging a caller supplied envelope behaves as follows.
Under the property strategy it never overwrites: absent properties are
created holding only the identity key, a pre existing value at the identity
key passes the whole message through completely unchanged, and an untagged
property object gains the identity key while every other property, and the
body, stay untouched; afterwards the identity key occurs exactly once
(uniqueness of object keys assumed where stated). Under the body field
strategy, contrary to the claim as stated, the identity field is written
unconditionally, overwriting any pre existing value, while every other body
field and the properties stay untouched and the identity key again occurs
exactly once. -/
theorem claim6_tagging_frame (o : SBOptions) (en : String)
    (fs : List (String × JsVal)) (b : JsVal)
    (hb : lookupF fs "body" = some b) :
    (o.useCustomPropertyForEventName = true →
      (lookupF fs "applicationProperties" = none →
        publish o en (.obj fs)
          = .ok (.obj (setFields fs "applicationProperties"
              (.obj [(resolvedKey o, .str en)])))
        ∧ lookupF (setFields fs "applicationProperties"
            (.obj [(resolvedKey o, .str en)])) "body" = some b
        ∧ keyCount [(resolvedKey o, .str en)] (resolvedKey o) = 1)
      ∧ (∀ pfs w, lookupF fs "applicationProperties" = some (.obj pfs) →
          lookupF pfs (resolvedKey o) = some w →
          publish o en (.obj fs) = .ok (.obj fs)
          ∧ ((pfs.map Prod.fst).Nodup → keyCount pfs (resolvedKey o) = 1))
      ∧ (∀ pfs, lookupF fs "applicationProperties" = some (.obj pfs) →
          lookupF pfs (resolvedKey o) = none →
          publish o en (.obj fs)
            = .ok (.obj (setFields fs "applicationProperties"
                (.obj (setFields pfs (resolvedKey o) (.str en)))))
          ∧ (∀ q, q ≠ resolvedKey o →
              lookupF (setFields pfs (resolvedKey o) (.str en)) q
                = lookupF pfs q)
          ∧ lookupF (setFields fs "applicationProperties"
              (.obj (setFields pfs (resolvedKey o) (.str en)))) "body"
              = some b
          ∧ keyCount (setFields pfs (resolvedKey o) (.str en))
              (resolvedKey o) = 1))
    ∧ (o.useCustomPropertyForEventName = false →
        ∀ bfs, b = .obj bfs →
          publish o en (.obj fs)
            = .ok (.obj (setFields fs "body"
                (.obj (setFields bfs (resolvedKey o) (.str en)))))
          ∧ lookupF (setFields bfs (resolvedKey o) (.str en)) (resolvedKey o)
              = some (.str en)
          ∧ (∀ q, q ≠ resolvedKey o →
              lookupF (setFields bfs (resolvedKey o) (.str en)) q
                = lookupF bfs q)
          ∧ lookupF (setFields fs "body"
              (.obj (setFields bfs (resolvedKey o) (.str en))))
              "applicationProperties" = lookupF fs "applicationProperties"
          ∧ ((bfs.map Prod.fst).Nodup →
              keyCount (setFields bfs (resolvedKey o) (.str en))
                (resolvedKey o) = 1)) := by
  constructor
  · intro hc
    refine ⟨fun hp => ⟨?_, ?_, ?_⟩, fun pfs w hp hw => ⟨?_, fun hnd => ?_⟩,
      fun pfs hp hw => ⟨?_, fun q hq => ?_, ?_, ?_⟩⟩
    · exact publish_env_custom_noprops o en fs b hc hb hp
    · rw [lookupF_setFields_ne fs "applicationProperties" "body" _ (by decide)]
      exact hb
    · simp [keyCount]
    · exact publish_env_custom_tagged o en fs b (.obj pfs) w hc hb hp hw
    · exact keyCount_eq_one_of_nodup pfs (resolvedKey o) w hnd hw
    · exact publish_env_custom_untagged o en fs b pfs hc hb hp hw
    · exact lookupF_setFields_ne pfs (resolvedKey o) q _ hq
    · rw [lookupF_setFields_ne fs "applicationProperties" "body" _ (by decide)]
      exact hb
    · exact keyCount_setFields_absent pfs (resolvedKey o) _ hw
  · intro hc2 bfs hbeq
    subst hbeq
    refine ⟨publish_env_body_obj o en fs bfs hc2 hb,
      lookupF_setFields_self bfs (resolvedKey o) (.str en),
      fun q hq => lookupF_setFields_ne bfs (resolvedKey o) q _ hq,
      ?_, fun hnd => keyCount_setFields_nodup bfs (resolvedKey o) _ hnd⟩
    exact lookupF_setFields_ne fs "body" "applicationProperties" _ (by decide)

/-- C6 witness: under the property strategy, publishing the pre tagged
envelope pconf passes it through completely unchanged, and its identity key
occurs exactly once. -/
theorem claim6_witness :
    publish oProp "B" (.obj fs0) = .ok (.obj fs0)
    ∧ keyCount [("eventName", JsVal.str "A")] (resolvedKey oProp) = 1 :=
  ⟨(((claim6_tagging_frame oProp "B" fs0 (.str "b") rfl).1 rfl).2.1
      [("eventName", .str "A")] (.str "A") rfl rfl).1,
   (((claim6_tagging_frame oProp "B" fs0 (.str "b") rfl).1 rfl).2.1
      [("eventName", .str "A")] (.str "A") rfl rfl).2 (by decide)⟩

/-- C6 counterexample: under the body field strategy, publishing with event
id B an envelope whose body already holds A at the identity key replaces A
by B, overwriting the pre existing value the claim says is never
overwritten. -/
theorem claim6_counterexample :
    publish oBody "B" pbody = .ok (.obj [("body", .obj [("eventName", .str "B")])])
    ∧ getF (.obj [("eventName", .str "A")]) "eventName" = some (.str "A")
    ∧ ("A" : String) ≠ "B" :=
  ⟨rfl, rfl, by decide⟩

/-- C10: publish classifies its payload by runtime inspection of the body
property alone: isServiceBusMessage holds exactly when the body property is
defined; under the property strategy a payload with defined body is sent
with its own body (never wrapped again, even if the caller meant the body
field as plain data), and a payload with undefined body is wrapped so that
the sent body is the payload itself. -/
theorem claim10_classification (o : SBOptions) (en : String) (p : JsVal) :
    isServiceBusMessage p = (getF p "body").isSome
    ∧ (o.useCustomPropertyForEventName = true →
        ((getF p "body").isSome = true → ∀ m, publish o en p = .ok m →
          getF m "body" = getF p "body")
        ∧ (getF p "body" = none → ∀ m, publish o en p = .ok m →
          getF m "body" = some p)) := by
  refine ⟨rfl, fun hc => ⟨fun hsome m hpub => ?_, fun hnone m hpub => ?_⟩⟩
  · obtain ⟨fs, rfl⟩ : ∃ fs, p = .obj fs := by
      cases p with
      | obj fs => exact ⟨fs, rfl⟩
      | str s => simp [getF] at hsome
      | num n => simp [getF] at hsome
      | boolean b => simp [getF] at hsome
    have hbe : ∃ b, lookupF fs "body" = some b := by
      cases hg : lookupF fs "body" with
      | some b => exact ⟨b, rfl⟩
      | none =>
          have : (lookupF fs "body").isSome = true := hsome
          rw [hg] at this
          simp at this
    obtain ⟨b, hb⟩ := hbe
    cases hp : lookupF fs "applicationProperties" with
    | none =>
        rw [publish_env_custom_noprops o en fs b hc hb hp] at hpub
        have hm := (Except.ok.injEq _ _).mp hpub
        rw [← hm]
        show lookupF (setFields fs "applicationProperties" _) "body"
          = lookupF fs "body"
        exact lookupF_setFields_ne fs "applicationProperties" "body" _
          (by decide)
    | some props =>
        have hsb : isServiceBusMessage (JsVal.obj fs) = true := by
          simp [isServiceBusMessage, getF, hb]
        have hp2 : getF (JsVal.obj fs) "applicationProperties" = some props :=
          hp
        simp only [publish, hsb, if_true, hc, hp2] at hpub
        cases he : enrichProps (resolvedKey o) en props with
        | error e => rw [he] at hpub; simp at hpub
        | ok props2 =>
            rw [he] at hpub
            simp only [setF, Except.ok.injEq] at hpub
            rw [← hpub]
            show lookupF (setFields fs "applicationProperties" props2) "body"
              = lookupF fs "body"
            exact lookupF_setFields_ne fs "applicationProperties" "body" _
              (by decide)
  · rw [publish_raw_custom o en p hc hnone] at hpub
    have hm := (Except.ok.injEq _ _).mp hpub
    rw [← hm]
    simp [getF, lookupF]

/-- C10 witness: the object payload pMsg carries a body field, so it is
classified as a prebuilt message and sent with its own body rather than
wrapped. -/
theorem claim10_witness :
    isServiceBusMessage pMsg = (getF pMsg "body").isSome
    ∧ getF msgSent "body" = getF pMsg "body" :=
  ⟨(claim10_classification oProp "E" pMsg).1,
   ((claim10_classification oProp "E" pMsg).2 rfl).1 rfl msgSent rfl⟩

end SBPS
